import Mathlib

/-!
Verification of the Trading_Bot session-manager specification against the
source of the repository (a Rust client for the Binance exchange).

The development shallowly embeds the parts of the source the claims are
about:

* `src/websocket/mod.rs` — the privileged-RPC WebSocket client
  (`sign_payload`, `request_websocket_api`, `run_websocket_api_listener`);
* `src/websocket_stream/mod.rs` — the public market-stream client
  (`BinanceWsMessage` untagged parsing, `run_market_stream_listener`,
  `send_stream_request`, `get_next_request_id`);
* `src/rest_api/mod.rs` — the signed REST helpers
  (`get_signed_rest_request`, `post_signed_rest_request`, `sign_payload`);
* `src/order/mod.rs` — `new_order` (balance / quote-asset guard logic).

Pure computations (canonicalization, HMAC-SHA256 signing, JSON rendering,
inbound-frame classification) are embedded as executable functions.  The two
listener event loops are embedded as step functions on explicit state: one
`tokio::select!` arm (or loop iteration) corresponds to one step; a pending
`oneshot` completion channel is identified by its correlation id, and a step
returns the list of resolutions it delivers to waiting callers.  Wall-clock
time is abstracted: timer expiry is an explicit event, and timestamps are
parameters.
-/

namespace TradingBot

/-! ## Bytes, SHA-256, HMAC-SHA256, hex — model of the `sha2`, `hmac` and
`hex` crates used by both `sign_payload` functions.  Bytes are `Nat` values
below 256; 32-bit words are `Nat` values reduced mod 2^32. -/

/-- Truncate to a 32-bit word. -/
def w32 (n : Nat) : Nat := n % 4294967296

/-- Right rotation of a 32-bit word. -/
def rotr (n x : Nat) : Nat := w32 ((x >>> n) ||| (x <<< (32 - n)))

/-- SHA-256 choice function. -/
def shaCh (e f g : Nat) : Nat := (e &&& f) ^^^ ((e ^^^ 4294967295) &&& g)

/-- SHA-256 majority function. -/
def shaMaj (a b c : Nat) : Nat := (a &&& b) ^^^ (a &&& c) ^^^ (b &&& c)

def bigSigma0 (x : Nat) : Nat := rotr 2 x ^^^ rotr 13 x ^^^ rotr 22 x

def bigSigma1 (x : Nat) : Nat := rotr 6 x ^^^ rotr 11 x ^^^ rotr 25 x

def smallSigma0 (x : Nat) : Nat := rotr 7 x ^^^ rotr 18 x ^^^ (x >>> 3)

def smallSigma1 (x : Nat) : Nat := rotr 17 x ^^^ rotr 19 x ^^^ (x >>> 10)

/-- The 64 SHA-256 round constants. -/
def shaK : List Nat :=
  [1116352408, 1899447441, 3049323471, 3921009573, 961987163,
   1508970993, 2453635748, 2870763221, 3624381080, 310598401,
   607225278, 1426881987, 1925078388, 2162078206, 2614888103,
   3248222580, 3835390401, 4022224774, 264347078, 604807628,
   770255983, 1249150122, 1555081692, 1996064986, 2554220882,
   2821834349, 2952996808, 3210313671, 3336571891, 3584528711,
   113926993, 338241895, 666307205, 773529912, 1294757372,
   1396182291, 1695183700, 1986661051, 2177026350, 2456956037,
   2730485921, 2820302411, 3259730800, 3345764771, 3516065817,
   3600352804, 4094571909, 275423344, 430227734, 506948616,
   659060556, 883997877, 958139571, 1322822218, 1537002063,
   1747873779, 1955562222, 2024104815, 2227730452, 2361852424,
   2428436474, 2756734187, 3204031479, 3329325298]

/-- The SHA-256 initial hash value. -/
def shaH0 : List Nat :=
  [1779033703, 3144134277, 1013904242, 2773480762,
   1359893119, 2600822924, 528734635, 1541459225]

/-- A natural number as 8 big-endian bytes. -/
def be64 (n : Nat) : List Nat :=
  [(n >>> 56) &&& 255, (n >>> 48) &&& 255, (n >>> 40) &&& 255, (n >>> 32) &&& 255,
   (n >>> 24) &&& 255, (n >>> 16) &&& 255, (n >>> 8) &&& 255, n &&& 255]

/-- A 32-bit word as 4 big-endian bytes. -/
def be32 (n : Nat) : List Nat :=
  [(n >>> 24) &&& 255, (n >>> 16) &&& 255, (n >>> 8) &&& 255, n &&& 255]

/-- SHA-256 padding: a 1-bit, zeros to 56 mod 64, then the bit length as 8 bytes. -/
def padMessage (msg : List Nat) : List Nat :=
  msg ++ [128] ++ List.replicate ((119 - msg.length % 64) % 64) 0 ++ be64 (msg.length * 8)

/-- Big-endian bytes to 32-bit words. -/
def toWords : List Nat → List Nat
  | b0 :: b1 :: b2 :: b3 :: rest => (((b0 * 256 + b1) * 256 + b2) * 256 + b3) :: toWords rest
  | _ => []

/-- Split a word list into 16-word blocks. -/
def toBlocks : List Nat → List (List Nat)
  | w0 :: w1 :: w2 :: w3 :: w4 :: w5 :: w6 :: w7 ::
    w8 :: w9 :: w10 :: w11 :: w12 :: w13 :: w14 :: w15 :: rest =>
      [w0, w1, w2, w3, w4, w5, w6, w7, w8, w9, w10, w11, w12, w13, w14, w15] :: toBlocks rest
  | _ => []

/-- Extend the message schedule; `acc` holds the words generated so far, most recent first. -/
def extendSchedule : Nat → List Nat → List Nat
  | 0, acc => acc
  | n + 1, acc =>
      let wNew := w32 (smallSigma1 (acc.getD 1 0) + acc.getD 6 0 +
                       smallSigma0 (acc.getD 14 0) + acc.getD 15 0)
      extendSchedule n (wNew :: acc)

/-- The 64-word message schedule of a block. -/
def schedule (block : List Nat) : List Nat := (extendSchedule 48 block.reverse).reverse

/-- One SHA-256 compression round on the state `[a,b,c,d,e,f,g,h]`. -/
def shaRound (st : List Nat) (k w : Nat) : List Nat :=
  match st with
  | [a, b, c, d, e, f, g, h] =>
      let t1 := w32 (h + bigSigma1 e + shaCh e f g + k + w)
      let t2 := w32 (bigSigma0 a + shaMaj a b c)
      [w32 (t1 + t2), a, b, c, w32 (d + t1), e, f, g]
  | other => other

/-- Compress one 16-word block into the running hash value. -/
def compressBlock (h : List Nat) (block : List Nat) : List Nat :=
  let st := (shaK.zip (schedule block)).foldl (fun s kw => shaRound s kw.1 kw.2) h
  (h.zip st).map (fun p => w32 (p.1 + p.2))

/-- SHA-256 of a byte list, as 32 digest bytes. -/
def sha256 (msg : List Nat) : List Nat :=
  (((toBlocks (toWords (padMessage msg))).foldl compressBlock shaH0).map be32).flatten

/-- HMAC-SHA256 (RFC 2104) of a message under a key, as 32 digest bytes. -/
def hmacSha256 (key msg : List Nat) : List Nat :=
  let k0 := if key.length > 64 then sha256 key else key
  let kp := k0 ++ List.replicate (64 - k0.length) 0
  sha256 ((kp.map (fun b => b ^^^ 92)) ++ sha256 ((kp.map (fun b => b ^^^ 54)) ++ msg))

/-- Lower-case hex digit for a value below 16. -/
def hexDigit (n : Nat) : Char := if n < 10 then Char.ofNat (48 + n) else Char.ofNat (87 + n)

/-- Lower-case hex encoding of a byte list, as the `hex` crate's `encode`. -/
def hexEncode (bs : List Nat) : String :=
  String.mk ((bs.map (fun b => [hexDigit (b / 16), hexDigit (b % 16)])).flatten)

/-- UTF-8 encoding of a Unicode scalar value. -/
def utf8Bytes (c : Nat) : List Nat :=
  if c < 128 then [c]
  else if c < 2048 then [192 ||| (c >>> 6), 128 ||| (c &&& 63)]
  else if c < 65536 then [224 ||| (c >>> 12), 128 ||| ((c >>> 6) &&& 63), 128 ||| (c &&& 63)]
  else [240 ||| (c >>> 18), 128 ||| ((c >>> 12) &&& 63), 128 ||| ((c >>> 6) &&& 63),
        128 ||| (c &&& 63)]

/-- The UTF-8 bytes of a string, as Rust's `str::as_bytes`. -/
def strBytes (s : String) : List Nat := (s.data.map (fun c => utf8Bytes c.toNat)).flatten

/-! ## String ordering and sorted association lists — model of the
`BTreeMap<String, _>` used by `request_websocket_api` and `serde_json`'s
`Map`.  Rust orders strings lexicographically on UTF-8 bytes, which
coincides with lexicographic order on Unicode scalar values. -/

/-- Lexicographic strict order on char lists, by scalar value. -/
def charsLtb : List Char → List Char → Bool
  | [], [] => false
  | [], _ :: _ => true
  | _ :: _, [] => false
  | a :: as, b :: bs =>
      if a < b then true
      else if b < a then false
      else charsLtb as bs

/-- Rust's `Ord for String`: lexicographic on bytes. -/
def strLtb (a b : String) : Bool := charsLtb a.data b.data

/-- Insertion into a `BTreeMap` represented as an association list sorted by
key: keeps the keys ordered and replaces an existing binding, as
`BTreeMap::insert`. -/
def insertSorted {α : Type} (k : String) (v : α) : List (String × α) → List (String × α)
  | [] => [(k, v)]
  | (k1, v1) :: rest =>
      if strLtb k k1 then (k, v) :: (k1, v1) :: rest
      else if k = k1 then (k, v) :: rest
      else (k1, v1) :: insertSorted k v rest

/-- First binding of a key in an association list (`serde_json::Value::get`
on objects; with sorted, duplicate-free lists this is map lookup). -/
def lookupKey {α : Type} (k : String) : List (String × α) → Option α
  | [] => none
  | p :: l => if p.1 = k then some p.2 else lookupKey k l

/-! ## JSON values — model of `serde_json::Value`.  Numbers are modelled as
integers (the client only ever sends integers; quantities and prices are
rendered to strings before being placed in JSON).  Objects carry their
fields as an association list; rendering sorts the fields by key, as
`serde_json`'s default `BTreeMap`-backed objects do. -/

inductive Json : Type where
  | str (s : String)
  | num (n : Int)
  | bool (b : Bool)
  | null
  | arr (xs : List Json)
  | obj (fields : List (String × Json))

/-- JSON string escaping, as `serde_json` performs it. -/
def escapeChar (c : Char) : List Char :=
  if c = '"' then ['\\', '"']
  else if c = '\\' then ['\\', '\\']
  else if c.toNat = 8 then ['\\', 'b']
  else if c.toNat = 9 then ['\\', 't']
  else if c.toNat = 10 then ['\\', 'n']
  else if c.toNat = 12 then ['\\', 'f']
  else if c.toNat = 13 then ['\\', 'r']
  else if c.toNat < 32 then ['\\', 'u', '0', '0', hexDigit (c.toNat / 16), hexDigit (c.toNat % 16)]
  else [c]

def escapeString (s : String) : String := String.mk ((s.data.map escapeChar).flatten)

/-- A JSON string literal: escaped and quoted. -/
def quoteJson (s : String) : String := "\"" ++ escapeString s ++ "\""

mutual
/-- Compact rendering of a JSON value — `serde_json::Value::to_string()`.
An object's fields are printed in stored order: `serde_json` objects are
`BTreeMap`s, so a faithfully modelled object carries its fields sorted by
key and duplicate-free (every object this development builds is constructed
with `insertSorted`, which maintains exactly that). -/
def Json.render : Json → String
  | .str s => quoteJson s
  | .num n => toString n
  | .bool b => if b then "true" else "false"
  | .null => "null"
  | .arr xs => "[" ++ renderItems xs ++ "]"
  | .obj fs => "\x7b" ++ renderFields fs ++ "\x7d"

def renderItems : List Json → String
  | [] => ""
  | [x] => Json.render x
  | x :: tl => Json.render x ++ "," ++ renderItems tl

def renderFields : List (String × Json) → String
  | [] => ""
  | [(k, v)] => quoteJson k ++ ":" ++ Json.render v
  | (k, v) :: tl => quoteJson k ++ ":" ++ Json.render v ++ "," ++ renderFields tl
end

/-! ## Request signing — `websocket/mod.rs` lines 125–180 and
`rest_api/mod.rs` lines 52–58, 69–87, 156–174.  Wall-clock time
(`SystemTime::now`, epoch milliseconds) is a `timestamp` parameter. -/

/-- Rust `str::trim_matches('"')`: strip every leading and trailing quote. -/
def trimQuotes (s : String) : String :=
  String.mk (((s.data.dropWhile (· == '"')).reverse.dropWhile (· == '"')).reverse)

/-- One parameter value as `request_websocket_api` renders it for signing:
`v.to_string().trim_matches('"')`. -/
def renderSignable (v : Json) : String := trimQuotes (Json.render v)

/-- `WebSocketClient::sign_payload`: hex-encoded HMAC-SHA256 of the query
string under the secret key. -/
def WebSocketClient.sign_payload (secret_key query_string : String) : String :=
  hexEncode (hmacSha256 (strBytes secret_key) (strBytes query_string))

/-- `RestClient::sign_payload` — textually the same computation, duplicated
in `rest_api/mod.rs`. -/
def RestClient.sign_payload (secret_key query_string : String) : String :=
  hexEncode (hmacSha256 (strBytes secret_key) (strBytes query_string))

/-- Char-list version of `str::starts_with` (byte-wise, equivalently
char-wise, prefix test). -/
def charsStartWith : List Char → List Char → Bool
  | _, [] => true
  | [], _ :: _ => false
  | a :: as, b :: bs => a == b && charsStartWith as bs

/-- Rust `str::starts_with`. -/
def strStartsWith (s pat : String) : Bool := charsStartWith s.data pat.data

/-- Rust `str::ends_with`. -/
def strEndsWith (s pat : String) : Bool := charsStartWith s.data.reverse pat.data.reverse

/-- The `requires_signature` test of `request_websocket_api` (line 147). -/
def requires_signature (method : String) : Bool :=
  strStartsWith method "v2/" || strEndsWith method "session.logon" ||
    strStartsWith method "order."

/-- One `k=v` entry of a query string (`format!("{}={}", k, v)`). -/
def kvString (p : String × String) : String := p.1 ++ "=" ++ p.2

/-- Entries joined with `&`. -/
def queryJoin (entries : List (String × String)) : String :=
  String.intercalate "&" (entries.map kvString)

/-- The signable `BTreeMap` built by `request_websocket_api` (lines 156–163):
every param inserted with its trimmed rendering, then `timestamp`, then
`apiKey`. -/
def wsSignableEntries (fields : List (String × Json)) (timestamp : Nat) (api_key : String) :
    List (String × String) :=
  insertSorted "apiKey" api_key (insertSorted "timestamp" (toString timestamp)
    (fields.foldl (fun m p => insertSorted p.1 (renderSignable p.2) m) []))

/-- The canonical query string signed by `request_websocket_api` (lines 165–168). -/
def wsCanonicalString (fields : List (String × Json)) (timestamp : Nat) (api_key : String) :
    String :=
  queryJoin (wsSignableEntries fields timestamp api_key)

/-- The signature attached by `request_websocket_api` (line 170). -/
def wsSignature (secret_key api_key : String) (fields : List (String × Json))
    (timestamp : Nat) : String :=
  WebSocketClient.sign_payload secret_key (wsCanonicalString fields timestamp api_key)

/-- The parameter-preparing and signing part of
`WebSocketClient::request_websocket_api` (lines 142–180): when the method
requires a signature the params must be a JSON object, and `apiKey`,
`timestamp` and `signature` are inserted into it; otherwise the params pass
through unchanged.  (The sending and awaiting part of the function is
modelled by the listener step relation and `awaitWsApiResponse` below.) -/
def WebSocketClient.request_websocket_api (api_key secret_key : String) (method : String)
    (params : Json) (timestamp : Nat) : Except String Json :=
  if requires_signature method then
    match params with
    | .obj fields =>
        .ok (.obj (insertSorted "signature"
          (.str (wsSignature secret_key api_key fields timestamp))
          (insertSorted "timestamp" (.num (Int.ofNat timestamp))
            (insertSorted "apiKey" (.str api_key) fields))))
    | _ => .error "Params must be a JSON object for signed requests"
  else .ok params

/-- Query string built by `RestClient::get_signed_rest_request` (lines 79–84):
parameters joined in caller order, then `timestamp` appended — no sorting and
no `apiKey` entry (the key is sent as the `X-MBX-APIKEY` header). -/
def get_signed_rest_request_query (params : List (String × String)) (timestamp : Nat) : String :=
  String.intercalate "&" ((params.map kvString) ++ ["timestamp=" ++ toString timestamp])

/-- Query string built by `RestClient::post_signed_rest_request` (lines
165–170) — the same construction, duplicated in the source. -/
def post_signed_rest_request_query (params : List (String × String)) (timestamp : Nat) : String :=
  String.intercalate "&" ((params.map kvString) ++ ["timestamp=" ++ toString timestamp])

/-- The signature computed by `get_signed_rest_request` (line 85). -/
def get_signed_rest_request_signature (secret_key : String) (params : List (String × String))
    (timestamp : Nat) : String :=
  RestClient.sign_payload secret_key (get_signed_rest_request_query params timestamp)

/-- The signature computed by `post_signed_rest_request` (line 171). -/
def post_signed_rest_request_signature (secret_key : String) (params : List (String × String))
    (timestamp : Nat) : String :=
  RestClient.sign_payload secret_key (post_signed_rest_request_query params timestamp)

/-! ## Spec-side canonicalization (§4.4 of the specification), written from
the specification's words for comparison with the source-side pipeline:
insert `timestamp` and `apiKey` entries, sort all entries by key in ASCII
lexicographic order, join as `key=value` with `&`, HMAC-SHA256, hex. -/

/-- Sorting by key, spec-side: an insertion sort by key. -/
def specSortByKey {α : Type} (l : List (String × α)) : List (String × α) :=
  l.foldr (fun p m => insertSorted p.1 p.2 m) []

/-- Spec-side canonical entry list: rendered params with `timestamp` and
`apiKey` entries added, sorted by key. -/
def specCanonicalEntries (params : List (String × String)) (timestamp : Nat)
    (api_key : String) : List (String × String) :=
  specSortByKey (params ++ [("timestamp", toString timestamp), ("apiKey", api_key)])

/-- Spec-side canonical string (§4.4). -/
def specCanonicalString (fields : List (String × Json)) (timestamp : Nat)
    (api_key : String) : String :=
  queryJoin (specCanonicalEntries (fields.map (fun p => (p.1, renderSignable p.2)))
    timestamp api_key)

/-- Spec-side signature (§4.4): hex-encoded HMAC-SHA256 of the canonical
string under the secret key. -/
def specSignature (secret_key api_key : String) (fields : List (String × Json))
    (timestamp : Nat) : String :=
  hexEncode (hmacSha256 (strBytes secret_key) (strBytes (specCanonicalString fields timestamp api_key)))

/-! ## Inbound frame classification — `websocket_stream/mod.rs` lines 17–50
(`BinanceWsMessage` with `#[serde(untagged)]`) and the deserialization
behaviour of `serde`: untagged enums try their variants in declaration
order (`Result`, `Error`, `StreamData`, `Raw`), structs ignore unknown
fields, `Option` fields treat `null` and absence as `None`. -/

/-- `SubscriptionResult`: a subscription/command response. -/
structure SubscriptionResult where
  result : Option Json
  id : Nat

/-- `WsError`: an error frame from the server. -/
structure WsError where
  code : Int
  msg : String
  id : Option Nat

/-- `BinanceWsMessage`: an inbound frame after classification. -/
inductive BinanceWsMessage : Type where
  | result (r : SubscriptionResult)
  | wsErr (e : WsError)
  | streamData (stream : String) (data : Json)
  | raw (v : Json)

/-- Deserialize a `u64` field, as serde: a non-negative integer number. -/
def asU64 : Json → Option Nat
  | .num n => if 0 ≤ n then some n.toNat else none
  | _ => none

/-- Deserialize an `i64` field. -/
def asI64 : Json → Option Int
  | .num n => some n
  | _ => none

/-- Deserialize a `String` field. -/
def asStr : Json → Option String
  | .str s => some s
  | _ => none

/-- An `Option<Value>` field: absent or `null` is `None`. -/
def optField (fields : List (String × Json)) (k : String) : Option Json :=
  match lookupKey k fields with
  | some .null => none
  | some v => some v
  | none => none

/-- Try the `Result(SubscriptionResult)` variant: needs a `u64` `id`; the
`result` field is optional; other fields are ignored. -/
def tryResult (j : Json) : Option SubscriptionResult :=
  match j with
  | .obj fields => ((lookupKey "id" fields).bind asU64).map
      (fun i => ⟨optField fields "result", i⟩)
  | _ => none

/-- Try the `Error(WsError)` variant: needs an `i64` `code` and a string
`msg`; `id` is an optional `u64` (present with the wrong type fails the
variant). -/
def tryWsError (j : Json) : Option WsError :=
  match j with
  | .obj fields =>
      match (lookupKey "code" fields).bind asI64, (lookupKey "msg" fields).bind asStr with
      | some c, some m =>
          match lookupKey "id" fields with
          | none => some ⟨c, m, none⟩
          | some .null => some ⟨c, m, none⟩
          | some v => (asU64 v).map (fun i => ⟨c, m, some i⟩)
      | _, _ => none
  | _ => none

/-- Try the `StreamData` variant: needs a string `stream` and a `data` field. -/
def tryStreamData (j : Json) : Option (String × Json) :=
  match j with
  | .obj fields =>
      match (lookupKey "stream" fields).bind asStr, lookupKey "data" fields with
      | some s, some d => some (s, d)
      | _, _ => none
  | _ => none

/-- Untagged deserialization of `BinanceWsMessage`: the variants are tried
in declaration order and `Raw` accepts anything. -/
def parseBinanceWsMessage (j : Json) : BinanceWsMessage :=
  match tryResult j with
  | some r => .result r
  | none =>
      match tryWsError j with
      | some e => .wsErr e
      | none =>
          match tryStreamData j with
          | some sd => .streamData sd.1 sd.2
          | none => .raw j

/-! ## The market-stream listener — `run_market_stream_listener`
(`websocket_stream/mod.rs` lines 137–330) as a step function.  State: the
`pending_requests` table (completion channels identified by their `u64`
correlation ids) and whether `ws_stream_opt` currently holds a connection.
One step is one `tokio::select!` arm followed by the end-of-iteration
`need_reconnect` handling; the write result and the data-channel send
result are event parameters.  A step returns the resolutions delivered to
waiting callers. -/

/-- Resolution delivered through a pending request's oneshot channel:
`Result<Value, String>`. -/
abbrev Resolution := Except String Json

/-- `HashMap::insert` on the pending table (correlation ids are unique). -/
def pendingInsert {κ : Type} [BEq κ] (k : κ) (l : List κ) : List κ :=
  k :: l.erase k

/-- The message every drained pending request is resolved with on
reconnect (line 326). -/
def connLostMsg : String := "WebSocket connection lost during request."

/-- A stream command submitted through the command channel
(`WsStreamRequest`), carrying its already-minted correlation id. -/
inductive WsStreamRequest : Type where
  | subscribe (id : Nat) (streams : List String)
  | unsubscribe (id : Nat) (streams : List String)
  | listSubscriptions (id : Nat)
  | setProperty (id : Nat) (property : String) (value : Json)
  | getProperty (id : Nat) (property : String)

/-- The correlation id of a stream command. -/
def WsStreamRequest.reqId : WsStreamRequest → Nat
  | .subscribe i _ => i
  | .unsubscribe i _ => i
  | .listSubscriptions i => i
  | .setProperty i _ _ => i
  | .getProperty i _ => i

/-- The outbound frame of a stream command (lines 176–214): `method`,
`params`, `id`. -/
def WsStreamRequest.payload : WsStreamRequest → Json
  | .subscribe i streams =>
      .obj [("id", .num (Int.ofNat i)), ("method", .str "SUBSCRIBE"),
            ("params", .arr (streams.map .str))]
  | .unsubscribe i streams =>
      .obj [("id", .num (Int.ofNat i)), ("method", .str "UNSUBSCRIBE"),
            ("params", .arr (streams.map .str))]
  | .listSubscriptions i =>
      .obj [("id", .num (Int.ofNat i)), ("method", .str "LIST_SUBSCRIPTIONS")]
  | .setProperty i property value =>
      .obj [("id", .num (Int.ofNat i)), ("method", .str "SET_PROPERTY"),
            ("params", .arr [.str property, value])]
  | .getProperty i property =>
      .obj [("id", .num (Int.ofNat i)), ("method", .str "GET_PROPERTY"),
            ("params", .arr [.str property])]

/-- Listener state of the market-stream client. -/
structure MsState where
  pending : List Nat
  connected : Bool
deriving DecidableEq

/-- A frame (or transport condition) read from the market-stream socket.
`text` carries the already-JSON-parsed payload; `badText` is a text frame
that failed JSON parsing. -/
inductive MsInbound : Type where
  | text (j : Json)
  | badText
  | binary
  | frame
  | ping
  | pong
  | close
  | readErr
  | streamEnd

/-- One `tokio::select!` outcome for the market-stream listener.  For
writes (`submit`, `sendRaw`), `writeErr` carries the transport error when
the socket write fails.  For inbound stream data, `consumerOk` is whether
`data_sender.send` succeeds. -/
inductive MsEvent : Type where
  | submit (req : WsStreamRequest) (writeErr : Option String)
  | sendRaw (writeErr : Option String)
  | inbound (m : MsInbound) (consumerOk : Bool)
  | channelClosed
  | idleTimeout

/-- End-of-iteration `need_reconnect` handling (lines 322–328): the stream
is dropped and every pending request is drained and resolved with a
connection-lost error. -/
def msDisconnect (s : MsState) : MsState × List (Nat × Resolution) :=
  (⟨[], false⟩, s.pending.map (fun i => (i, Except.error connLostMsg)))

/-- Inbound text handling of the market-stream listener (lines 245–286). -/
def msHandleText (s : MsState) (j : Json) (consumerOk : Bool) :
    MsState × List (Nat × Resolution) :=
  match parseBinanceWsMessage j with
  | .result res =>
      if res.id ∈ s.pending then
        (⟨s.pending.erase res.id, s.connected⟩, [(res.id, Except.ok (res.result.getD .null))])
      else (s, [])
  | .wsErr e =>
      match e.id with
      | some i =>
          if i ∈ s.pending then
            (⟨s.pending.erase i, s.connected⟩,
             [(i, Except.error ("Market Stream Error (ID: " ++ toString i ++ "): " ++ e.msg))])
          else (s, [])
      | none => (s, [])
  | .streamData _ _ => if consumerOk then (s, []) else msDisconnect s
  | .raw _ => if consumerOk then (s, []) else msDisconnect s

/-- One iteration of `run_market_stream_listener` from a connected state.
Note the write-failure paths (lines 215–222 and 226–233): they resolve the
failed submission (if any) and set `need_reconnect`, but the `continue`
statement jumps to the top of the loop, skipping the lines 322–328
handling — so the stream is retained and nothing is drained. -/
def msStep (s : MsState) (e : MsEvent) : MsState × List (Nat × Resolution) :=
  match e with
  | .submit req writeErr =>
      match writeErr with
      | some err => (s, [(req.reqId, Except.error ("Failed to send WS message: " ++ err))])
      | none => (⟨pendingInsert req.reqId s.pending, s.connected⟩, [])
  | .sendRaw _ => (s, [])
  | .inbound m consumerOk =>
      match m with
      | .text j => msHandleText s j consumerOk
      | .badText => (s, [])
      | .binary => (s, [])
      | .frame => (s, [])
      | .ping => (s, [])
      | .pong => (s, [])
      | .close => msDisconnect s
      | .readErr => msDisconnect s
      | .streamEnd => msDisconnect s
  | .channelClosed => msDisconnect s
  | .idleTimeout => msDisconnect s

/-! ## The privileged-RPC listener — `run_websocket_api_listener`
(`websocket/mod.rs` lines 199–348) as a step function.  Unlike the
market-stream listener, its end-of-iteration handling (lines 341–347) only
drops the stream: `pending_requests` is never drained.  The separate
`timeout_reconnect` flag (line 207) persists across iterations and only
ever guards a log line. -/

/-- Listener state of the privileged-RPC client.  Correlation ids are
strings (UUIDs minted by `request_websocket_api`). -/
structure ApiState where
  pending : List String
  connected : Bool
  timeoutReconnect : Bool
deriving DecidableEq

/-- A frame (or transport condition) read from the RPC socket. -/
inductive ApiInbound : Type where
  | text (j : Json)
  | badText
  | binary
  | frame
  | ping
  | pong
  | close
  | readErr
  | streamEnd

/-- One `tokio::select!` outcome for the privileged-RPC listener. -/
inductive ApiEvent : Type where
  | submit (id : String) (writeErr : Option String)
  | inbound (m : ApiInbound)
  | channelClosed
  | idleTimeout

/-- The response id extracted by lines 272–282: a string id, or a `u64`
rendered to a string; anything else is treated as unmatched. -/
def apiResponseId (fields : List (String × Json)) : Option String :=
  match lookupKey "id" fields with
  | some (.str s) => some s
  | some (.num n) => if 0 ≤ n then some (toString n.toNat) else none
  | some _ => none
  | none => none

/-- Inbound text handling of the RPC listener (lines 270–305): find the id,
remove the matching pending entry, resolve it from `status`/`result` or
`error.msg`. -/
def apiHandleText (s : ApiState) (j : Json) : ApiState × List (String × Resolution) :=
  match j with
  | .obj fields =>
      match apiResponseId fields with
      | some i =>
          if i ∈ s.pending then
            let res : Resolution :=
              if ((lookupKey "status" fields).bind asU64) = some 200 then
                Except.ok ((lookupKey "result" fields).getD .null)
              else
                Except.error ("WebSocket API error: " ++
                  (((lookupKey "error" fields).bind (fun e =>
                    match e with
                    | .obj ef => (lookupKey "msg" ef).bind asStr
                    | _ => none)).getD "Unknown error"))
            (⟨s.pending.erase i, s.connected, s.timeoutReconnect⟩, [(i, res)])
          else (s, [])
      | none => (s, [])
  | _ => (s, [])

/-- One iteration of `run_websocket_api_listener` from a connected state.
On any disconnecting condition only the stream is dropped (line 342) — the
pending table survives untouched.  The idle-timer arm (lines 335–338) only
sets `timeout_reconnect`; it never sets `need_reconnect`, so the connection
is retained.  The write-failure arm (lines 251–257) resolves the failed
submission and sets `need_reconnect`, but `continue` skips the line 341–343
handling, so the stream is also retained there. -/
def apiStep (s : ApiState) (e : ApiEvent) : ApiState × List (String × Resolution) :=
  match e with
  | .submit i writeErr =>
      match writeErr with
      | some err => (s, [(i, Except.error ("Failed to send WS API message: " ++ err))])
      | none => (⟨pendingInsert i s.pending, s.connected, s.timeoutReconnect⟩, [])
  | .inbound m =>
      match m with
      | .text j => apiHandleText s j
      | .badText => (s, [])
      | .binary => (s, [])
      | .frame => (s, [])
      | .ping => (s, [])
      | .pong => (s, [])
      | .close => (⟨s.pending, false, s.timeoutReconnect⟩, [])
      | .readErr => (⟨s.pending, false, s.timeoutReconnect⟩, [])
      | .streamEnd => (⟨s.pending, false, s.timeoutReconnect⟩, [])
  | .channelClosed => (⟨s.pending, false, s.timeoutReconnect⟩, [])
  | .idleTimeout => (⟨s.pending, s.connected, true⟩, [])

/-! ## The caller-side awaits.  Both facades await their oneshot receiver
with no deadline: the call returns only when the listener resolves the
channel or drops it. -/

/-- `request_websocket_api` lines 193–195: `response_rx.await` with a
receive-error message; there is no timeout combinator and no deadline
parameter. -/
def awaitWsApiResponse (r : Option Resolution) : Resolution :=
  match r with
  | some res => res
  | none => Except.error "Failed to receive WebSocket API response: channel closed"

/-- `send_stream_request` lines 347–349: the market-stream analogue, again
with no deadline. -/
def awaitStreamResponse (r : Option Resolution) : Resolution :=
  match r with
  | some res => res
  | none => Except.error "Failed to receive response from stream listener: channel closed"

/-! ## Correlation-id minting for stream commands —
`MarketStreamClient::get_next_request_id` (`websocket_stream/mod.rs` lines
411–415).  The counter is a `static AtomicU64` declared inside the method:
Rust `static`s are process-wide, so the counter is shared by every
`MarketStreamClient` in the process.  `fetch_add` returns the previous
value; the counter starts at 1. -/

/-- `get_next_request_id` acting on the shared counter: returns the minted
id and the new counter. -/
def get_next_request_id (nextId : Nat) : Nat × Nat := (nextId, nextId + 1)

/-- Run a sequence of `get_next_request_id` calls, tagged by which client
instance made each call, threading the single process-wide counter from
`next`. -/
def mintIdsFrom : Nat → List Nat → List (Nat × Nat)
  | _, [] => []
  | next, client :: calls =>
      let minted := get_next_request_id next
      (client, minted.1) :: mintIdsFrom minted.2 calls

/-- All ids minted for a call sequence, starting from the initial counter
value `AtomicU64::new(1)`. -/
def mintIds (calls : List Nat) : List (Nat × Nat) := mintIdsFrom 1 calls

/-- The ids a given client instance receives for its own calls within the
process-wide sequence. -/
def clientRequestIds (c : Nat) (calls : List Nat) : List Nat :=
  ((mintIds calls).filter (fun p => p.1 == c)).map (fun p => p.2)

/-! ## Order placement — `WebSocketClient::new_order` (`order/mod.rs` lines
335–418).  Monetary amounts are modelled as exact rationals (the source
uses `f64`; the claims concern the guard structure, not rounding).  The
environment carries the results of the two network fetches the function
makes before building the request; error strings with float formatting are
modelled as a structured error type. -/

inductive OrderSide : Type where
  | buy
  | sell
deriving DecidableEq

inductive OrderType : Type where
  | limit
  | market
  | stopLoss
  | stopLossLimit
  | takeProfit
  | takeProfitLimit
  | limitMaker
deriving DecidableEq

inductive TimeInForce : Type where
  | gtc
  | ioc
  | fok
deriving DecidableEq

/-- `serde_json::to_string(&side).trim_matches('"')`. -/
def OrderSide.render : OrderSide → String
  | .buy => "BUY"
  | .sell => "SELL"

/-- `serde_json::to_string(&order_type).trim_matches('"')`. -/
def OrderType.render : OrderType → String
  | .limit => "LIMIT"
  | .market => "MARKET"
  | .stopLoss => "STOP_LOSS"
  | .stopLossLimit => "STOP_LOSS_LIMIT"
  | .takeProfit => "TAKE_PROFIT"
  | .takeProfitLimit => "TAKE_PROFIT_LIMIT"
  | .limitMaker => "LIMIT_MAKER"

/-- `serde_json::to_string(&tif).trim_matches('"')`. -/
def TimeInForce.render : TimeInForce → String
  | .gtc => "GTC"
  | .ioc => "IOC"
  | .fok => "FOK"

/-- Results of the two fetches `new_order` performs before submitting:
`get_asset_balance` (an `Option` inside a `Result`, already parsed to a
number) and `get_current_price` (used only for market orders). -/
structure NewOrderEnv where
  assetBalance : Except String (Option ℚ)
  currentPrice : Except String ℚ

/-- The error cases of `new_order` before any request is submitted (the
source formats these as strings; the numeric formatting is elided). -/
inductive NewOrderError : Type where
  | unsupportedQuoteAsset (symbol : String)
  | balanceFetch (e : String)
  | assetNotFound (asset : String)
  | priceFetch (e : String)
  | insufficientFunds (required available : ℚ) (asset : String)
deriving DecidableEq

/-- A request submitted over the privileged WebSocket connection. -/
structure WsApiCall where
  method : String
  params : List (String × Json)

/-- `const COMMISSION_RATE: f64 = 0.0004` (line 377). -/
def COMMISSION_RATE : ℚ := 4 / 10000

/-- Rendering of an `f64` amount into a JSON string parameter
(`quantity.to_string()`); modelled on rationals. -/
def ratStr (q : ℚ) : String := toString q

/-- The effective order price (lines 363–372): the explicit limit price, or
the fetched current market price. -/
def order_price_of (price : Option ℚ) (env : NewOrderEnv) : Except String ℚ :=
  match price with
  | some p => Except.ok p
  | none => env.currentPrice

/-- The quote-asset suffix check of `new_order` (lines 347–354): only
`USDT`- and `BUSD`-suffixed symbols are accepted. -/
def quote_asset_of (symbol : String) : Except NewOrderError String :=
  if strEndsWith symbol "USDT" then .ok "USDT"
  else if strEndsWith symbol "BUSD" then .ok "BUSD"
  else .error (.unsupportedQuoteAsset symbol)

/-- `WebSocketClient::new_order` up to the point of submission: quote-asset
check, balance fetch, price resolution, commission-inclusive funds check,
parameter construction.  Returns the `order.place` call it would submit,
or the error that made it return without submitting anything. -/
def new_order (symbol : String) (side : OrderSide) (order_type : OrderType)
    (quantity : ℚ) (price : Option ℚ) (time_in_force : Option TimeInForce)
    (new_client_order_id : Option String) (env : NewOrderEnv) :
    Except NewOrderError WsApiCall :=
  match quote_asset_of symbol with
  | .error e => .error e
  | .ok quote_asset =>
    match env.assetBalance with
    | .error e => .error (.balanceFetch e)
    | .ok none => .error (.assetNotFound quote_asset)
    | .ok (some available_balance_quote) =>
        match order_price_of price env with
        | .error e => .error (.priceFetch e)
        | .ok order_price =>
            let estimated_cost := quantity * order_price
            let total_cost_with_commission := estimated_cost * (1 + COMMISSION_RATE)
            if available_balance_quote < total_cost_with_commission then
              .error (.insufficientFunds total_cost_with_commission
                available_balance_quote quote_asset)
            else
              let params0 : List (String × Json) :=
                insertSorted "quantity" (.str (ratStr quantity))
                  (insertSorted "type" (.str order_type.render)
                    (insertSorted "side" (.str side.render)
                      (insertSorted "symbol" (.str symbol.toUpper) [])))
              let params1 := match price with
                | some p => insertSorted "price" (.str (ratStr p)) params0
                | none => params0
              let params2 := match time_in_force with
                | some tif => insertSorted "timeInForce" (.str tif.render) params1
                | none => params1
              let params3 := match new_client_order_id with
                | some cid => insertSorted "newClientOrderId" (.str cid) params2
                | none => params2
              .ok ⟨"order.place", params3⟩

/-- The disconnection causes named by the specification for the
market-stream listener: read error, server close frame, stream end, forced
idle reconnect (and closure of the command channel). -/
def isMsDisconnectEvent : MsEvent → Bool
  | .inbound .close _ => true
  | .inbound .readErr _ => true
  | .inbound .streamEnd _ => true
  | .channelClosed => true
  | .idleTimeout => true
  | .submit _ _ => false
  | .sendRaw _ => false
  | .inbound (.text _) _ => false
  | .inbound .badText _ => false
  | .inbound .binary _ => false
  | .inbound .frame _ => false
  | .inbound .ping _ => false
  | .inbound .pong _ => false

/-- The conditions under which the privileged-RPC listener actually drops
its stream (lines 320–332, 259–263): close frame, read error, stream end,
command-channel closure.  Its idle timer does not disconnect (C6). -/
def isApiDisconnectEvent : ApiEvent → Bool
  | .inbound .close => true
  | .inbound .readErr => true
  | .inbound .streamEnd => true
  | .channelClosed => true
  | .submit _ _ => false
  | .inbound (.text _) => false
  | .inbound .badText => false
  | .inbound .binary => false
  | .inbound .frame => false
  | .inbound .ping => false
  | .inbound .pong => false
  | .idleTimeout => false

/-! # Theorems

First the known-answer and sanity anchors, then the helper lemma layer for
sorted association lists, then the claim theorems. -/

/-- SHA-256 known-answer test (FIPS 180-2 vector), anchoring the hash embedding. -/
theorem sha256_abc_vector :
    hexEncode (sha256 (strBytes "abc")) =
      "ba7816bf8f01cfea414140de5dae2223b00361a396177a9cb410ff61f20015ad" := by decide

set_option maxRecDepth 8000 in
/-- HMAC-SHA256 known-answer test (RFC 4231 test case 2), anchoring the MAC embedding. -/
theorem hmacSha256_rfc4231_vector :
    hexEncode (hmacSha256 (strBytes "Jefe") (strBytes "what do ya want for nothing?")) =
      "5bdcc146bf60754e6a042426089575c75a003f089d2739839dec58b964ec3843" := by decide

/-- Rendering sanity anchor for the JSON embedding. -/
theorem json_render_anchor :
    Json.render (.obj [("a", .bool true), ("b", .arr [.str "x", .num (-2)])]) =
      "\x7b\"a\":true,\"b\":[\"x\",-2]\x7d" := by decide

/-- Canonical-string sanity anchor: sorting and insertion behave as expected
on a concrete parameter map. -/
theorem wsCanonicalString_anchor :
    wsCanonicalString [("symbol", .str "BTCUSDT"), ("side", .str "BUY")] 1700000000000 "AK" =
      "apiKey=AK&side=BUY&symbol=BTCUSDT&timestamp=1700000000000" := by decide

/-! ## Lemmas about the string order and sorted association lists. -/

theorem charsLtb_antisymm (as bs : List Char) (h1 : charsLtb as bs = false)
    (h2 : charsLtb bs as = false) : as = bs := by
  induction as generalizing bs with
  | nil =>
    cases bs with
    | nil => rfl
    | cons b bs => simp [charsLtb] at h1
  | cons a as ih =>
    cases bs with
    | nil => simp [charsLtb] at h2
    | cons b bs =>
      simp only [charsLtb] at h1 h2
      rcases lt_trichotomy a b with hlt | heq | hgt
      · simp [hlt] at h1
      · subst heq
        simp only [lt_irrefl, if_false] at h1 h2
        exact congrArg (a :: ·) (ih bs h1 h2)
      · simp [hgt, not_lt_of_gt hgt] at h2

theorem strLtb_antisymm (a b : String) (h1 : strLtb a b = false)
    (h2 : strLtb b a = false) : a = b :=
  String.ext (charsLtb_antisymm _ _ h1 h2)

theorem charsLtb_irrefl (as : List Char) : charsLtb as as = false := by
  induction as with
  | nil => rfl
  | cons a as ih => simp [charsLtb, lt_irrefl, ih]

theorem strLtb_irrefl (a : String) : strLtb a a = false := charsLtb_irrefl _

theorem strLtb_ne {a b : String} (h : strLtb a b = true) : a ≠ b := by
  intro he
  subst he
  rw [strLtb_irrefl] at h
  exact Bool.false_ne_true h

theorem strLtb_true_of (a b : String) (h1 : strLtb a b = false) (h2 : a ≠ b) :
    strLtb b a = true := by
  cases hc : strLtb b a with
  | true => rfl
  | false => exact absurd (strLtb_antisymm a b h1 hc) h2

theorem charsLtb_trans {as bs cs : List Char} (h1 : charsLtb as bs = true)
    (h2 : charsLtb bs cs = true) : charsLtb as cs = true := by
  induction as generalizing bs cs with
  | nil =>
    cases cs with
    | nil =>
      cases bs with
      | nil => simp [charsLtb] at h1
      | cons b bs => simp [charsLtb] at h2
    | cons c cs => simp [charsLtb]
  | cons a as ih =>
    cases bs with
    | nil => simp [charsLtb] at h1
    | cons b bs =>
      cases cs with
      | nil => simp [charsLtb] at h2
      | cons c cs =>
        simp only [charsLtb] at h1 h2 ⊢
        rcases lt_trichotomy a b with hab | hab | hab
        · rcases lt_trichotomy b c with hbc | hbc | hbc
          · simp [lt_trans hab hbc]
          · subst hbc
            simp [hab]
          · simp [hbc, not_lt_of_gt hbc] at h2
        · subst hab
          rcases lt_trichotomy a c with hac | hac | hac
          · simp [hac]
          · subst hac
            simp only [lt_irrefl, if_false] at h1 h2 ⊢
            exact ih h1 h2
          · simp [hac, not_lt_of_gt hac] at h2
        · simp [hab, not_lt_of_gt hab] at h1

theorem strLtb_trans {a b c : String} (h1 : strLtb a b = true)
    (h2 : strLtb b c = true) : strLtb a c = true := charsLtb_trans h1 h2

/-- The strict key order used for sortedness of the association lists. -/
def keyLtb {α : Type} (p q : String × α) : Prop := strLtb p.1 q.1 = true

theorem mem_insertSorted {α : Type} {k : String} {v : α} {l : List (String × α)}
    {x : String × α} (hx : x ∈ insertSorted k v l) : x = (k, v) ∨ x ∈ l := by
  induction l with
  | nil => simpa [insertSorted] using hx
  | cons p rest ih =>
    cases h1 : strLtb k p.1 with
    | true =>
      rw [insertSorted, if_pos h1] at hx
      rcases List.mem_cons.mp hx with hx | hx
      · exact Or.inl hx
      · exact Or.inr hx
    | false =>
      by_cases h2 : k = p.1
      · rw [insertSorted, if_neg (by simp [h1]), if_pos h2] at hx
        rcases List.mem_cons.mp hx with hx | hx
        · exact Or.inl hx
        · exact Or.inr (List.mem_cons_of_mem _ hx)
      · rw [insertSorted, if_neg (by simp [h1]), if_neg h2] at hx
        rcases List.mem_cons.mp hx with hx | hx
        · exact Or.inr (by rw [hx]; exact List.mem_cons_self p rest)
        · rcases ih hx with hy | hy
          · exact Or.inl hy
          · exact Or.inr (List.mem_cons_of_mem _ hy)

theorem pairwise_insertSorted {α : Type} (k : String) (v : α) (l : List (String × α))
    (hl : l.Pairwise keyLtb) : (insertSorted k v l).Pairwise keyLtb := by
  induction l with
  | nil => simp [insertSorted, keyLtb]
  | cons p rest ih =>
    rcases List.pairwise_cons.mp hl with ⟨hp, hrest⟩
    cases h1 : strLtb k p.1 with
    | true =>
      rw [insertSorted, if_pos h1]
      refine List.pairwise_cons.mpr ⟨?_, hl⟩
      intro q hq
      rcases List.mem_cons.mp hq with hq | hq
      · rw [hq]; exact h1
      · exact strLtb_trans h1 (hp q hq)
    | false =>
      by_cases h2 : k = p.1
      · rw [insertSorted, if_neg (by simp [h1]), if_pos h2]
        refine List.pairwise_cons.mpr ⟨?_, hrest⟩
        intro q hq
        show strLtb k q.1 = true
        rw [h2]
        exact hp q hq
      · rw [insertSorted, if_neg (by simp [h1]), if_neg h2]
        refine List.pairwise_cons.mpr ⟨?_, ih hrest⟩
        intro q hq
        rcases mem_insertSorted hq with hq | hq
        · rw [hq]
          exact strLtb_true_of k p.1 h1 h2
        · exact hp q hq

theorem lookupKey_insertSorted {α : Type} (k2 k : String) (v : α) (l : List (String × α)) :
    lookupKey k2 (insertSorted k v l) = if k = k2 then some v else lookupKey k2 l := by
  induction l with
  | nil =>
    by_cases h : k = k2 <;> simp [insertSorted, lookupKey, h]
  | cons p rest ih =>
    cases h1 : strLtb k p.1 with
    | true =>
      rw [insertSorted, if_pos h1]
      by_cases h : k = k2 <;> simp [lookupKey, h]
    | false =>
      by_cases h2 : k = p.1
      · rw [insertSorted, if_neg (by simp [h1]), if_pos h2, h2]
        by_cases h : p.1 = k2 <;> simp [lookupKey, h, h2]
      · rw [insertSorted, if_neg (by simp [h1]), if_neg h2]
        by_cases h3 : p.1 = k2
        · have hk : ¬ (k = k2) := fun hc => h2 (hc.trans h3.symm)
          simp [lookupKey, h3, hk]
        · simp [lookupKey, h3, ih]

theorem lookupKey_eq_none_of_forall {α : Type} (k : String) (l : List (String × α))
    (h : ∀ q ∈ l, q.1 ≠ k) : lookupKey k l = none := by
  induction l with
  | nil => rfl
  | cons p rest ih =>
    rw [lookupKey, if_neg (h p (List.mem_cons_self p rest))]
    exact ih (fun q hq => h q (List.mem_cons_of_mem _ hq))

theorem lookupKey_head_tail_none {α : Type} (p : String × α) (l : List (String × α))
    (h : (p :: l).Pairwise keyLtb) : lookupKey p.1 l = none := by
  rcases List.pairwise_cons.mp h with ⟨hp, _⟩
  exact lookupKey_eq_none_of_forall _ _ (fun q hq => (strLtb_ne (hp q hq)).symm)

theorem lookupKey_some_mem {α : Type} {k : String} {l : List (String × α)} {v : α}
    (h : lookupKey k l = some v) : (k, v) ∈ l := by
  induction l with
  | nil => simp [lookupKey] at h
  | cons p rest ih =>
    by_cases h1 : p.1 = k
    · rw [lookupKey, if_pos h1] at h
      have hp : p = (k, v) := Prod.ext h1 (Option.some.inj h)
      rw [← hp]
      exact List.mem_cons_self p rest
    · rw [lookupKey, if_neg h1] at h
      exact List.mem_cons_of_mem _ (ih h)

/-- Two association lists sorted by strictly increasing key and equal as
lookup functions are equal as lists. -/
theorem sorted_lookup_ext {α : Type} (l1 l2 : List (String × α))
    (h1 : l1.Pairwise keyLtb) (h2 : l2.Pairwise keyLtb)
    (hl : ∀ k, lookupKey k l1 = lookupKey k l2) : l1 = l2 := by
  induction l1 generalizing l2 with
  | nil =>
    cases l2 with
    | nil => rfl
    | cons p l2 =>
      have h := hl p.1
      simp [lookupKey] at h
  | cons p l1 ih =>
    cases l2 with
    | nil =>
      have h := hl p.1
      simp [lookupKey] at h
    | cons q l2 =>
      have hpq : p.1 = q.1 := by
        by_contra hne
        have ha : lookupKey p.1 (q :: l2) = some p.2 := by
          rw [← hl p.1]; simp [lookupKey]
        have hb : lookupKey q.1 (p :: l1) = some q.2 := by
          rw [hl q.1]; simp [lookupKey]
        have hma := lookupKey_some_mem ha
        have hmb := lookupKey_some_mem hb
        rcases List.mem_cons.mp hma with hx | hx
        · exact hne (congrArg Prod.fst hx)
        · rcases List.mem_cons.mp hmb with hy | hy
          · exact hne (congrArg Prod.fst hy).symm
          · have hqp : strLtb q.1 p.1 = true := (List.pairwise_cons.mp h2).1 _ hx
            have hpqx : strLtb p.1 q.1 = true := (List.pairwise_cons.mp h1).1 _ hy
            have hcontra : strLtb p.1 p.1 = true := strLtb_trans hpqx hqp
            rw [strLtb_irrefl] at hcontra
            exact Bool.false_ne_true hcontra
      have hv : p.2 = q.2 := by
        have h := hl p.1
        simp [lookupKey, ← hpq] at h
        exact h
      have hpq2 : p = q := Prod.ext hpq hv
      subst hpq2
      refine congrArg (p :: ·) (ih l2 (List.Pairwise.of_cons h1) (List.Pairwise.of_cons h2) ?_)
      intro k
      by_cases hk : p.1 = k
      · rw [← hk, lookupKey_head_tail_none p l1 h1, lookupKey_head_tail_none p l2 h2]
      · simpa [lookupKey, hk] using hl k

theorem lookupKey_append {α : Type} (k : String) (l1 l2 : List (String × α)) :
    lookupKey k (l1 ++ l2) =
      match lookupKey k l1 with
      | some v => some v
      | none => lookupKey k l2 := by
  induction l1 with
  | nil => simp [lookupKey]
  | cons p rest ih =>
    by_cases h1 : p.1 = k
    · simp [lookupKey, h1]
    · simp [lookupKey, h1, ih]

theorem lookupKey_specSortByKey {α : Type} (k : String) (l : List (String × α)) :
    lookupKey k (specSortByKey l) = lookupKey k l := by
  induction l with
  | nil => rfl
  | cons p rest ih =>
    show lookupKey k (insertSorted p.1 p.2 (specSortByKey rest)) = _
    rw [lookupKey_insertSorted, ih]
    by_cases h1 : p.1 = k
    · simp [lookupKey, h1]
    · have hk : ¬ (k = p.1) := fun hc => h1 hc.symm
      simp [lookupKey, h1, hk]

theorem pairwise_specSortByKey {α : Type} (l : List (String × α)) :
    (specSortByKey l).Pairwise keyLtb := by
  induction l with
  | nil => exact List.Pairwise.nil
  | cons p rest ih => exact pairwise_insertSorted p.1 p.2 _ ih

theorem pairwise_foldl_insert {α : Type} (l : List (String × α)) (m : List (String × α))
    (hm : m.Pairwise keyLtb) :
    (l.foldl (fun acc p => insertSorted p.1 p.2 acc) m).Pairwise keyLtb := by
  induction l generalizing m with
  | nil => exact hm
  | cons p rest ih => exact ih _ (pairwise_insertSorted p.1 p.2 m hm)

theorem lookupKey_foldl_insert {α : Type} (k : String) (l : List (String × α))
    (m : List (String × α)) (hnd : (l.map Prod.fst).Nodup) :
    lookupKey k (l.foldl (fun acc p => insertSorted p.1 p.2 acc) m) =
      match lookupKey k l with
      | some v => some v
      | none => lookupKey k m := by
  induction l generalizing m with
  | nil => simp [lookupKey]
  | cons p rest ih =>
    simp only [List.map_cons, List.nodup_cons] at hnd
    show lookupKey k (rest.foldl _ (insertSorted p.1 p.2 m)) = _
    rw [ih _ hnd.2]
    by_cases h1 : p.1 = k
    · have hnone : lookupKey k rest = none := by
        apply lookupKey_eq_none_of_forall
        intro q hq hc
        exact hnd.1 (h1 ▸ hc ▸ List.mem_map_of_mem Prod.fst hq)
      rw [hnone, lookupKey_insertSorted]
      simp [lookupKey, h1]
    · rw [lookupKey_insertSorted]
      have hk : ¬ (p.1 = k) := h1
      rw [if_neg (fun hc : p.1 = k => h1 hc)]
      cases hr : lookupKey k rest <;> simp [lookupKey, h1, hr]

theorem lookupKey_eq_none_of_not_mem_keys {α : Type} {k : String} {l : List (String × α)}
    (h : k ∉ l.map Prod.fst) : lookupKey k l = none :=
  lookupKey_eq_none_of_forall _ _
    (fun _ hq hc => h (hc ▸ List.mem_map_of_mem Prod.fst hq))

/-- The source-side signable map equals the spec-side §4.4 canonical entry
list, for parameter maps with distinct keys that do not already bind
`timestamp` or `apiKey`. -/
theorem wsEntries_eq_spec (fields : List (String × Json)) (ts : Nat) (ak : String)
    (hnd : (fields.map Prod.fst).Nodup)
    (hts : "timestamp" ∉ fields.map Prod.fst)
    (hak : "apiKey" ∉ fields.map Prod.fst) :
    wsSignableEntries fields ts ak =
      specCanonicalEntries (fields.map (fun p => (p.1, renderSignable p.2))) ts ak := by
  have hkeys : (fields.map (fun p => (p.1, renderSignable p.2))).map Prod.fst =
      fields.map Prod.fst := by
    simp [List.map_map]
  have hfold : fields.foldl (fun m p => insertSorted p.1 (renderSignable p.2) m)
      ([] : List (String × String)) =
      (fields.map (fun p => (p.1, renderSignable p.2))).foldl
        (fun acc p => insertSorted p.1 p.2 acc) [] := by
    rw [List.foldl_map]
  rw [wsSignableEntries, hfold]
  apply sorted_lookup_ext
  · exact pairwise_insertSorted _ _ _ (pairwise_insertSorted _ _ _
      (pairwise_foldl_insert _ _ List.Pairwise.nil))
  · exact pairwise_specSortByKey _
  · intro k
    rw [lookupKey_insertSorted, lookupKey_insertSorted,
      lookupKey_foldl_insert _ _ _ (hkeys ▸ hnd)]
    rw [specCanonicalEntries, lookupKey_specSortByKey, lookupKey_append]
    by_cases hk1 : k = "apiKey"
    · subst hk1
      rw [if_pos rfl]
      rw [lookupKey_eq_none_of_not_mem_keys (hkeys ▸ hak)]
      simp [lookupKey]
    · rw [if_neg (fun hc : "apiKey" = k => hk1 hc.symm)]
      by_cases hk2 : k = "timestamp"
      · subst hk2
        rw [if_pos rfl]
        rw [lookupKey_eq_none_of_not_mem_keys (hkeys ▸ hts)]
        simp [lookupKey]
      · rw [if_neg (fun hc : "timestamp" = k => hk2 hc.symm)]
        cases hm : lookupKey k (fields.map (fun p => (p.1, renderSignable p.2))) with
        | some v => rfl
        | none =>
          show lookupKey k [] =
            lookupKey k [("timestamp", toString ts), ("apiKey", ak)]
          rw [lookupKey, lookupKey,
            if_neg (fun hc : "timestamp" = k => hk2 hc.symm), lookupKey,
            if_neg (fun hc : "apiKey" = k => hk1 hc.symm)]
          rfl

/-- The canonical string signed by the source equals the §4.4 spec-side
canonical string, under the same side conditions. -/
theorem wsCanonicalString_eq_spec (fields : List (String × Json)) (ts : Nat) (ak : String)
    (hnd : (fields.map Prod.fst).Nodup)
    (hts : "timestamp" ∉ fields.map Prod.fst)
    (hak : "apiKey" ∉ fields.map Prod.fst) :
    wsCanonicalString fields ts ak = specCanonicalString fields ts ak := by
  rw [wsCanonicalString, specCanonicalString]
  exact congrArg queryJoin (wsEntries_eq_spec fields ts ak hnd hts hak)

/-- The attached signature equals the §4.4 spec-side signature, under the
same side conditions. -/
theorem wsSignature_eq_spec (secret_key api_key : String) (fields : List (String × Json))
    (ts : Nat) (hnd : (fields.map Prod.fst).Nodup)
    (hts : "timestamp" ∉ fields.map Prod.fst)
    (hak : "apiKey" ∉ fields.map Prod.fst) :
    wsSignature secret_key api_key fields ts = specSignature secret_key api_key fields ts := by
  rw [wsSignature, specSignature, WebSocketClient.sign_payload,
    wsCanonicalString_eq_spec fields ts api_key hnd hts hak]

/-- C5: For every privileged request (method starting with "v2/" or
"order.", or ending with "session.logon") whose params are a JSON object,
`request_websocket_api` builds the signature by rendering each parameter
value as its trimmed string form, inserting `timestamp` (epoch
milliseconds) and `apiKey`, sorting entries by key in ASCII lexicographic
order, joining them as `key=value` pairs with `&`, computing HMAC-SHA256 of
that string with the secret key, and hex-encoding the digest, which is
attached to the request as the `signature` parameter.  (`specSignature` is
exactly that pipeline, written from the specification's words; params with
duplicate keys or caller-supplied `timestamp`/`apiKey` entries are excluded,
as in the source those would be overwritten.) -/
theorem C5_privileged_request_signing :
    (∀ method : String, requires_signature method =
        (strStartsWith method "v2/" || strStartsWith method "order." ||
         strEndsWith method "session.logon")) ∧
    ∀ (secret_key api_key : String) (fields : List (String × Json)) (timestamp : Nat),
      (fields.map Prod.fst).Nodup →
      "timestamp" ∉ fields.map Prod.fst →
      "apiKey" ∉ fields.map Prod.fst →
      ∀ method : String, requires_signature method = true →
      ∃ out : List (String × Json),
        WebSocketClient.request_websocket_api api_key secret_key method (.obj fields)
          timestamp = .ok (.obj out) ∧
        lookupKey "signature" out =
          some (.str (specSignature secret_key api_key fields timestamp)) := by
  constructor
  · intro method
    rw [requires_signature]
    cases hb : strEndsWith method "session.logon" <;>
      cases hc : strStartsWith method "order." <;>
        simp [hb, hc]
  · intro secret_key api_key fields timestamp hnd hts hak method hm
    refine ⟨insertSorted "signature" (.str (wsSignature secret_key api_key fields timestamp))
      (insertSorted "timestamp" (.num (Int.ofNat timestamp))
        (insertSorted "apiKey" (.str api_key) fields)), ?_, ?_⟩
    · rw [WebSocketClient.request_websocket_api, if_pos hm]
    · rw [lookupKey_insertSorted, if_pos rfl,
        wsSignature_eq_spec secret_key api_key fields timestamp hnd hts hak]

/-- Witness for C5 at a concrete privileged `order.place` call. -/
theorem C5_witness :
    ((([("symbol", Json.str "BTCUSDT"), ("side", Json.str "BUY")].map Prod.fst).Nodup ∧
      "timestamp" ∉ [("symbol", Json.str "BTCUSDT"), ("side", Json.str "BUY")].map Prod.fst ∧
      "apiKey" ∉ [("symbol", Json.str "BTCUSDT"), ("side", Json.str "BUY")].map Prod.fst ∧
      requires_signature "order.place" = true) ∧
    ∃ out : List (String × Json),
      WebSocketClient.request_websocket_api "AK" "SEC" "order.place"
        (.obj [("symbol", Json.str "BTCUSDT"), ("side", Json.str "BUY")]) 1700000000000 =
          .ok (.obj out) ∧
      lookupKey "signature" out =
        some (.str (specSignature "SEC" "AK"
          [("symbol", Json.str "BTCUSDT"), ("side", Json.str "BUY")] 1700000000000))) :=
  ⟨⟨by decide, by decide, by decide, by decide⟩,
    C5_privileged_request_signing.2 "SEC" "AK"
      [("symbol", Json.str "BTCUSDT"), ("side", Json.str "BUY")] 1700000000000
      (by decide) (by decide) (by decide) "order.place" (by decide)⟩

set_option maxRecDepth 16000 in
/-- Counterexample to C3: the REST helpers do not perform the §4.4
canonicalization.  On params `{symbol: BTCUSDT}` the REST query string keeps
caller order and omits `apiKey`, so it differs from the WebSocket canonical
string, and the two signatures differ; on `[("b","2"),("a","1")]` the REST
string is visibly unsorted. -/
theorem C3_counterexample :
    get_signed_rest_request_query [("symbol", "BTCUSDT")] 1700000000000 ≠
      wsCanonicalString [("symbol", Json.str "BTCUSDT")] 1700000000000 "AK" ∧
    get_signed_rest_request_query [("b", "2"), ("a", "1")] 7 = "b=2&a=1&timestamp=7" ∧
    get_signed_rest_request_signature "SEC" [("symbol", "BTCUSDT")] 1700000000000 ≠
      wsSignature "SEC" "AK" [("symbol", Json.str "BTCUSDT")] 1700000000000 := by
  refine ⟨by decide, by decide, by decide⟩

/-- C3 (amended): the REST single-shot helpers share the signing primitive
with the WebSocket signer — both `sign_payload` functions are the same
hex-HMAC-SHA256, and the two REST helpers build identical query strings —
but not the canonicalization: the REST query string keeps the parameters in
caller order, appends `timestamp` last and never inserts `apiKey`.  The two
canonical strings (and hence signatures) coincide exactly when the REST
caller spells out the §4.4 form itself, e.g. passing exactly
`[("apiKey", ak)]` against an empty WebSocket parameter map. -/
theorem C3_rest_ws_signing_amended :
    (∀ secret_key query_string : String,
      RestClient.sign_payload secret_key query_string =
        WebSocketClient.sign_payload secret_key query_string) ∧
    (∀ (params : List (String × String)) (ts : Nat),
      get_signed_rest_request_query params ts = post_signed_rest_request_query params ts) ∧
    (∀ (ak : String) (ts : Nat),
      get_signed_rest_request_query [("apiKey", ak)] ts = wsCanonicalString [] ts ak) ∧
    (∀ (secret_key ak : String) (ts : Nat),
      get_signed_rest_request_signature secret_key [("apiKey", ak)] ts =
        wsSignature secret_key ak [] ts) := by
  refine ⟨fun _ _ => rfl, fun _ _ => rfl, fun ak ts => rfl, fun secret_key ak ts => ?_⟩
  exact congrArg (WebSocketClient.sign_payload secret_key)
    (rfl : get_signed_rest_request_query [("apiKey", ak)] ts = wsCanonicalString [] ts ak)

/-- Counterexample to C9: mutating a single parameter value does not always
change the signature.  The number `5` and the string `"5"` are different
JSON values, but both render (after quote-trimming) to the byte string `5`,
so the canonical strings — and therefore the signatures — coincide. -/
theorem C9_counterexample :
    Json.num 5 ≠ Json.str "5" ∧
    wsSignature "SEC" "AK" [("x", Json.num 5)] 1000 =
      wsSignature "SEC" "AK" [("x", Json.str "5")] 1000 := by
  refine ⟨by simp, ?_⟩
  exact congrArg (WebSocketClient.sign_payload "SEC")
    (by decide :
      wsCanonicalString [("x", Json.num 5)] 1000 "AK" =
        wsCanonicalString [("x", Json.str "5")] 1000 "AK")

/-- C9 (amended): signing is a pure function of the parameter map, timestamp
and keys — identical inputs give identical signatures, and more generally
the signature depends only on the canonical query string, so two parameter
maps with the same canonical rendering (such as the number `5` and the
string `"5"`) receive the same signature.  Distinctness of signatures for
distinct canonical strings is a cryptographic property of HMAC-SHA256, not
a theorem. -/
theorem C9_signing_determinism :
    (∀ (secret_key api_key : String) (fields : List (String × Json)) (ts : Nat),
      wsSignature secret_key api_key fields ts = wsSignature secret_key api_key fields ts) ∧
    ∀ (secret_key api_key : String) (fields1 fields2 : List (String × Json)) (ts : Nat),
      wsCanonicalString fields1 ts api_key = wsCanonicalString fields2 ts api_key →
      wsSignature secret_key api_key fields1 ts = wsSignature secret_key api_key fields2 ts := by
  refine ⟨fun _ _ _ _ => rfl, fun secret_key api_key fields1 fields2 ts h => ?_⟩
  exact congrArg (WebSocketClient.sign_payload secret_key) h

/-- Witness for C9 at the concrete value pair `5` / `"5"`. -/
theorem C9_witness :
    wsCanonicalString [("y", Json.num 5)] 7 "AK" =
      wsCanonicalString [("y", Json.str "5")] 7 "AK" ∧
    wsSignature "S2" "AK" [("y", Json.num 5)] 7 =
      wsSignature "S2" "AK" [("y", Json.str "5")] 7 :=
  ⟨by decide,
    C9_signing_determinism.2 "S2" "AK" [("y", Json.num 5)] [("y", Json.str "5")] 7 (by decide)⟩

/-- Counterexample to C1: the privileged-RPC listener does not resolve or
clear its pending table on connection loss.  After a read error with
pending request `"a"`, the stream is dropped but the table still holds
`"a"` and no resolution is delivered. -/
theorem C1_counterexample :
    apiStep ⟨["a"], true, false⟩ (.inbound .readErr) = (⟨["a"], false, false⟩, []) ∧
    (apiStep ⟨["a"], true, false⟩ (.inbound .readErr)).1.pending ≠ [] ∧
    (apiStep ⟨["a"], true, false⟩ (.inbound .readErr)).2 = [] :=
  ⟨rfl, by decide, rfl⟩

/-- C1 (amended): on connection loss (read error, server close frame,
stream end, forced idle reconnect, or command-channel closure) the
market-stream listener resolves every outstanding PendingRequest with the
connection-lost error exactly once — the resolution list is exactly the
pending table mapped to that error — and leaves its table empty.  The
privileged-RPC listener does not: on the conditions that drop its stream it
delivers no resolutions and leaves every entry in its table. -/
theorem C1_connection_loss_resolution :
    (∀ (s : MsState) (e : MsEvent), isMsDisconnectEvent e = true →
      msStep s e = (⟨[], false⟩, s.pending.map (fun i => (i, Except.error connLostMsg)))) ∧
    (∀ (t : ApiState) (e : ApiEvent), isApiDisconnectEvent e = true →
      apiStep t e = (⟨t.pending, false, t.timeoutReconnect⟩, [])) := by
  constructor
  · intro s e he
    cases e with
    | submit req w => exact absurd he (by simp [isMsDisconnectEvent])
    | sendRaw w => exact absurd he (by simp [isMsDisconnectEvent])
    | inbound m c =>
      cases m with
      | text j => exact absurd he (by simp [isMsDisconnectEvent])
      | badText => exact absurd he (by simp [isMsDisconnectEvent])
      | binary => exact absurd he (by simp [isMsDisconnectEvent])
      | frame => exact absurd he (by simp [isMsDisconnectEvent])
      | ping => exact absurd he (by simp [isMsDisconnectEvent])
      | pong => exact absurd he (by simp [isMsDisconnectEvent])
      | close => rfl
      | readErr => rfl
      | streamEnd => rfl
    | channelClosed => rfl
    | idleTimeout => rfl
  · intro t e he
    cases e with
    | submit i w => exact absurd he (by simp [isApiDisconnectEvent])
    | inbound m =>
      cases m with
      | text j => exact absurd he (by simp [isApiDisconnectEvent])
      | badText => exact absurd he (by simp [isApiDisconnectEvent])
      | binary => exact absurd he (by simp [isApiDisconnectEvent])
      | frame => exact absurd he (by simp [isApiDisconnectEvent])
      | ping => exact absurd he (by simp [isApiDisconnectEvent])
      | pong => exact absurd he (by simp [isApiDisconnectEvent])
      | close => rfl
      | readErr => rfl
      | streamEnd => rfl
    | channelClosed => rfl
    | idleTimeout => exact absurd he (by simp [isApiDisconnectEvent])

/-- Witness for C1 at a concrete two-entry table (market stream) and a
concrete one-entry table (privileged RPC). -/
theorem C1_witness :
    (isMsDisconnectEvent (.inbound .readErr true) = true ∧
     msStep ⟨[5, 9], true⟩ (.inbound .readErr true) =
       (⟨[], false⟩, [(5, Except.error connLostMsg), (9, Except.error connLostMsg)])) ∧
    (isApiDisconnectEvent (.inbound .close) = true ∧
     apiStep ⟨["u1"], true, false⟩ (.inbound .close) = (⟨["u1"], false, false⟩, [])) :=
  ⟨⟨rfl, C1_connection_loss_resolution.1 ⟨[5, 9], true⟩ (.inbound .readErr true) rfl⟩,
   ⟨rfl, C1_connection_loss_resolution.2 ⟨["u1"], true, false⟩ (.inbound .close) rfl⟩⟩

/-- Counterexample to C6: when the privileged-RPC listener's 60-second idle
timer fires, the connection is not dropped — only the `timeout_reconnect`
flag is set, so no forced transition to Lost occurs. -/
theorem C6_counterexample :
    apiStep ⟨[], true, false⟩ .idleTimeout = (⟨[], true, true⟩, []) ∧
    ¬ ((apiStep ⟨[], true, false⟩ .idleTimeout).1.connected = false) :=
  ⟨rfl, by decide⟩

/-- C6 (amended): the fixed 60-second idle window forces a reconnect on the
market-stream listener (dropping the stream and draining the table), but
not on the privileged-RPC listener, whose idle arm only sets the
`timeout_reconnect` flag and retains both the connection and the table. -/
theorem C6_idle_window :
    (∀ s : MsState, msStep s .idleTimeout =
      (⟨[], false⟩, s.pending.map (fun i => (i, Except.error connLostMsg)))) ∧
    (∀ t : ApiState, apiStep t .idleTimeout = (⟨t.pending, t.connected, true⟩, [])) :=
  ⟨fun _ => rfl, fun _ => rfl⟩

/-- C7 at its failing input: in both listeners a failed socket write
resolves exactly that one request with a transport error — but the
`continue` statement then skips the `need_reconnect` handling, so the
(broken) stream is retained and no reconnect transition happens; the
`need_reconnect = true` assignment in the write-failure arm is dead. -/
theorem C7_write_failure_no_reconnect :
    msStep ⟨[3], true⟩ (.submit (.subscribe 4 ["btcusdt@kline_1m"]) (some "io error")) =
      (⟨[3], true⟩, [(4, Except.error "Failed to send WS message: io error")]) ∧
    apiStep ⟨[], true, false⟩ (.submit "r1" (some "io error")) =
      (⟨[], true, false⟩, [("r1", Except.error "Failed to send WS API message: io error")]) ∧
    (msStep ⟨[3], true⟩ (.submit (.subscribe 4 ["btcusdt@kline_1m"]) (some "io error"))).1.connected
      = true :=
  ⟨rfl, rfl, rfl⟩

/-- C4 at its failing input: no per-call deadline exists.  The only timer
the privileged-RPC listener has resolves nothing and removes nothing (the
pending entry `"c4"` survives), and the caller-side awaits distinguish only
resolution and channel closure — there is no timeout resolution. -/
theorem C4_no_deadline_resolution :
    apiStep ⟨["c4"], true, false⟩ .idleTimeout = (⟨["c4"], true, true⟩, []) ∧
    awaitWsApiResponse none =
      Except.error "Failed to receive WebSocket API response: channel closed" ∧
    awaitStreamResponse none =
      Except.error "Failed to receive response from stream listener: channel closed" :=
  ⟨rfl, rfl, rfl⟩

/-- Counterexample to C2: a frame carrying both a `stream` field and an
`id` field is classified as a `Result` (the untagged `Result` variant is
tried first and ignores the unknown `stream`/`data` fields), not as a
stream event — and it does resolve a matching PendingRequestTable entry,
in both listeners. -/
theorem C2_counterexample :
    parseBinanceWsMessage
      (.obj [("stream", .str "btcusdt@kline_1m"), ("data", .obj []), ("id", .num 7)]) =
      .result ⟨none, 7⟩ ∧
    msStep ⟨[7], true⟩ (.inbound (.text
      (.obj [("stream", .str "btcusdt@kline_1m"), ("data", .obj []), ("id", .num 7)])) true) =
      (⟨[], true⟩, [(7, Except.ok Json.null)]) ∧
    apiStep ⟨["7"], true, false⟩ (.inbound (.text
      (.obj [("stream", .str "btcusdt@kline_1m"), ("data", .obj []), ("id", .num 7)]))) =
      (⟨[], true, false⟩, [("7", Except.error "WebSocket API error: Unknown error")]) :=
  ⟨rfl, rfl, rfl⟩

/-- C2 (amended): the tie-break goes the other way round: presence of a
(valid `u64`) `id` field takes precedence.  Any object frame whose `id`
field is a non-negative integer parses as `Result` — whatever other fields,
including `stream`, it carries — and is routed to the pending-request
table; only id-less (or invalid-id) frames can be classified as stream
events. -/
theorem C2_id_precedence :
    ∀ (fields : List (String × Json)) (n : Int),
      lookupKey "id" fields = some (.num n) → 0 ≤ n →
      parseBinanceWsMessage (.obj fields) = .result ⟨optField fields "result", n.toNat⟩ := by
  intro fields n hid hn
  have h1 : tryResult (.obj fields) = some ⟨optField fields "result", n.toNat⟩ := by
    rw [tryResult, hid]
    show (asU64 (.num n)).map _ = _
    rw [asU64, if_pos hn]
    rfl
  rw [parseBinanceWsMessage, h1]

/-- Witness for C2 at a concrete frame with both `stream` and `id`. -/
theorem C2_witness :
    (lookupKey "id" [("stream", Json.str "s"), ("id", Json.num 3)] = some (Json.num 3) ∧
      (0 : Int) ≤ 3) ∧
    parseBinanceWsMessage (.obj [("stream", Json.str "s"), ("id", Json.num 3)]) =
      .result ⟨optField [("stream", Json.str "s"), ("id", Json.num 3)] "result",
        (3 : Int).toNat⟩ :=
  ⟨⟨rfl, by decide⟩,
    C2_id_precedence [("stream", Json.str "s"), ("id", Json.num 3)] 3 rfl (by decide)⟩

/-- Counterexample to C8: the correlation-id counter is a process-wide
`static`, not per-client.  Client 1's minted ids depend on whether another
client minted first: alone it receives `[1]`, but after one call by
client 0 it receives `[2]`. -/
theorem C8_counterexample :
    clientRequestIds 1 [0, 1] = [2] ∧ clientRequestIds 1 [1] = [1] ∧
    clientRequestIds 1 [0, 1] ≠ clientRequestIds 1 [1] :=
  ⟨rfl, rfl, by decide⟩

/-- C8 (amended): the counter is process-wide and shared by every
`MarketStreamClient` in the process: across all clients the minted ids form
the single sequence 1, 2, 3, … in call order, and each client's own ids are
strictly increasing — but they are not the sequence 1, 2, 3, … per client
and not independent of other clients. -/
theorem C8_process_wide_counter :
    (∀ calls : List Nat, (mintIds calls).map Prod.snd = List.range' 1 calls.length) ∧
    (∀ (c : Nat) (calls : List Nat), (clientRequestIds c calls).Pairwise (· < ·)) := by
  have hfrom : ∀ (calls : List Nat) (next : Nat),
      (mintIdsFrom next calls).map Prod.snd = List.range' next calls.length := by
    intro calls
    induction calls with
    | nil => intro next; rfl
    | cons c rest ih =>
      intro next
      show next :: (mintIdsFrom (next + 1) rest).map Prod.snd = _
      rw [ih (next + 1), List.length_cons, List.range'_succ]
  constructor
  · intro calls
    exact hfrom calls 1
  · intro c calls
    have hpw : ((mintIds calls).map Prod.snd).Pairwise (· < ·) := by
      rw [mintIds, hfrom calls 1]
      exact List.pairwise_lt_range' 1 calls.length
    exact hpw.sublist ((List.filter_sublist _).map Prod.snd)

/-- C10: `new_order` rejects locally, without submitting anything over the
WebSocket connection, both (a) any symbol whose suffix is neither `USDT`
nor `BUSD`, and (b) any order whose fetched available quote balance is
strictly below `quantity × order price × 1.0004` (the fixed 0.04%
commission rate) — and the only request it ever submits is an
`order.place` call. -/
theorem C10_new_order_guards :
    (∀ (symbol : String) (side : OrderSide) (order_type : OrderType) (quantity : ℚ)
       (price : Option ℚ) (tif : Option TimeInForce) (cid : Option String)
       (env : NewOrderEnv),
      strEndsWith symbol "USDT" = false → strEndsWith symbol "BUSD" = false →
      new_order symbol side order_type quantity price tif cid env =
        .error (.unsupportedQuoteAsset symbol)) ∧
    (∀ (symbol : String) (side : OrderSide) (order_type : OrderType) (quantity : ℚ)
       (price : Option ℚ) (tif : Option TimeInForce) (cid : Option String)
       (env : NewOrderEnv) (qa : String) (available p : ℚ),
      quote_asset_of symbol = .ok qa →
      env.assetBalance = .ok (some available) →
      order_price_of price env = .ok p →
      available < quantity * p * (1 + COMMISSION_RATE) →
      new_order symbol side order_type quantity price tif cid env =
        .error (.insufficientFunds (quantity * p * (1 + COMMISSION_RATE)) available qa)) ∧
    (∀ (symbol : String) (side : OrderSide) (order_type : OrderType) (quantity : ℚ)
       (price : Option ℚ) (tif : Option TimeInForce) (cid : Option String)
       (env : NewOrderEnv) (call : WsApiCall),
      new_order symbol side order_type quantity price tif cid env = .ok call →
      call.method = "order.place") := by
  refine ⟨?_, ?_, ?_⟩
  · intro symbol side order_type quantity price tif cid env hu hb
    have hqa : quote_asset_of symbol = .error (.unsupportedQuoteAsset symbol) := by
      rw [quote_asset_of, if_neg (by simp [hu]), if_neg (by simp [hb])]
    rw [new_order, hqa]
  · intro symbol side order_type quantity price tif cid env qa available p hqa henv hp hlt
    simp only [new_order, hqa, henv, hp]
    rw [if_pos hlt]
  · intro symbol side order_type quantity price tif cid env call h
    cases hq : quote_asset_of symbol with
    | error e =>
      simp only [new_order, hq] at h
      exact Except.noConfusion h
    | ok qa =>
      cases hb : env.assetBalance with
      | error e =>
        simp only [new_order, hq, hb] at h
        exact Except.noConfusion h
      | ok ob =>
        cases ob with
        | none =>
          simp only [new_order, hq, hb] at h
          exact Except.noConfusion h
        | some available =>
          cases hp : order_price_of price env with
          | error e =>
            simp only [new_order, hq, hb, hp] at h
            exact Except.noConfusion h
          | ok op =>
            simp only [new_order, hq, hb, hp] at h
            by_cases hlt : available < quantity * op * (1 + COMMISSION_RATE)
            · rw [if_pos hlt] at h
              exact Except.noConfusion h
            · rw [if_neg hlt] at h
              injection h with h2
              rw [← h2]

/-- Witness for C10: a rejected foreign-quote symbol, and a rejected
under-funded buy (balance 10, cost 100 × 1.0004). -/
theorem C10_witness :
    (strEndsWith "ETHBTC" "USDT" = false ∧ strEndsWith "ETHBTC" "BUSD" = false ∧
     new_order "ETHBTC" .buy .limit 1 (some 100) (some .gtc) none
       ⟨.ok (some 10), .ok 100⟩ = .error (.unsupportedQuoteAsset "ETHBTC")) ∧
    (quote_asset_of "BTCUSDT" = .ok "USDT" ∧
     (⟨.ok (some 10), .ok 100⟩ : NewOrderEnv).assetBalance = .ok (some 10) ∧
     order_price_of (some 100) ⟨.ok (some 10), .ok 100⟩ = .ok 100 ∧
     (10 : ℚ) < 1 * 100 * (1 + COMMISSION_RATE) ∧
     new_order "BTCUSDT" .buy .limit 1 (some 100) (some .gtc) none
       ⟨.ok (some 10), .ok 100⟩ =
       .error (.insufficientFunds (1 * 100 * (1 + COMMISSION_RATE)) 10 "USDT")) :=
  ⟨⟨by decide, by decide,
    C10_new_order_guards.1 "ETHBTC" .buy .limit 1 (some 100) (some .gtc) none
      ⟨.ok (some 10), .ok 100⟩ (by decide) (by decide)⟩,
   ⟨rfl, rfl, rfl, by norm_num [COMMISSION_RATE],
    C10_new_order_guards.2.1 "BTCUSDT" .buy .limit 1 (some 100) (some .gtc) none
      ⟨.ok (some 10), .ok 100⟩ "USDT" 10 100 rfl rfl rfl
      (by norm_num [COMMISSION_RATE])⟩⟩

end TradingBot
